import Mathlib

/-!
Verification of the minting period processor of `threefoldtech/minting_v3`.

The repository excerpt contains the receipt-viewing front-end
(`minting_explorer/minting_ui/src/App.js`) together with design documents.
Definitions in the `MintingUI` namespace are translated line by line from
`App.js`.  The core minting engine itself is not part of the excerpt, so every
definition in the `Minting` namespace is modelled from the specification, as
marked in its doc comment.
-/

namespace MintingUI

/-- Translated from `App.js` line 12: the character class of the regular
expression `[0-9a-f]` (lowercase hexadecimal digits). -/
def isLowerHexChar (c : Char) : Bool :=
  (('0' ≤ c) && (c ≤ '9')) || (('a' ≤ c) && (c ≤ 'f'))

/-- Translated from `App.js` line 12: `/^[0-9a-f]+$/.test(input)` holds exactly
when the input is nonempty and every character is a lowercase hex digit. -/
def matchesHexInput (s : String) : Bool :=
  !s.isEmpty && s.data.all isLowerHexChar

/-- Translated from `App.js` lines 10-16 (`handleInput`): the state update of
the `receiptHash` React state.  The new input is stored when it matches the
regex or is empty; otherwise the stored state is left unchanged. -/
def handleInput (receiptHash input : String) : String :=
  if matchesHexInput input || input == "" then input else receiptHash

/-- Translated from `App.js` lines 22-32 (`useEffect`): a receipt lookup
request is issued exactly when the stored hash has length 64. -/
def shouldFetchReceipt (receiptHash : String) : Bool :=
  receiptHash.length == 64

/-- Translated from `App.js` line 110: the text rendered for an absent
stellar address (`&#9001;NOT SET&#9002;`). -/
def notSetText : String := "〈NOT SET〉"

/-- Translated from `App.js` lines 108-113 (`RenderStellarAddress`): a missing
or empty address (both falsy in JS) renders as `notSetText`, any other address
renders as itself. -/
def renderStellarAddress (address : Option String) : String :=
  match address with
  | Option.none => notSetText
  | Option.some a => if a == "" then notSetText else a

end MintingUI

namespace Minting

abbrev NodeId := Nat
abbrev FarmId := Nat

/-- Modelled from the spec (§4.2): the violation verdict and cause enum
`\x7bNone, ExcessiveDowntime, CapacityMismatch, Other\x7d`. -/
inductive ViolationCause
  | noViolation
  | excessiveDowntime
  | capacityMismatch
  | other
deriving DecidableEq, Repr

/-- Modelled from the spec (§3): sampled resource capacity of a node
(CPU, memory, storage-SSD, storage-HDD), named as in the `App.js` receipt
fields `cru`, `mru`, `sru`, `hru`. -/
structure ResourceUnits where
  cru : Nat
  mru : Nat
  sru : Nat
  hru : Nat
deriving DecidableEq, Repr

/-- Modelled from the spec (§3): the per-node, per-period accumulator: node
identifier, owning farm (possibly unknown), node type/class, cumulative
measured uptime in seconds, sampled resource capacity, and the violation
recorded for the period.  `violation` is sticky: a violation recorded at any
point during the period is kept even if it is later resolved (§4.2), while
`currently_violating` tracks the momentary status. -/
structure NodeState where
  node_id : NodeId
  farm_id : Option FarmId
  node_type : Nat
  uptime : Nat
  capacity : ResourceUnits
  violation : ViolationCause
  currently_violating : Bool
deriving DecidableEq, Repr

/-- Modelled from the spec (§6): one chain event of the time-ordered sequence
supplied by the Chain Event Source: capacity, uptime, farm-metadata and
violation events, each referencing a node. -/
inductive ChainEvent
  | uptimeReport (node : NodeId) (seconds : Nat)
  | capacityReport (node : NodeId) (cap : ResourceUnits)
  | farmAssign (node : NodeId) (farm : FarmId)
  | violationStart (node : NodeId) (cause : ViolationCause)
  | violationEnd (node : NodeId)
deriving DecidableEq, Repr

/-- Modelled from the spec (§4.1): the fresh `NodeState` created on first
sight of a node; unknown-farm references are retained with a null farm
back-reference rather than rejected. -/
def emptyNodeState (n : NodeId) : NodeState :=
  { node_id := n
    farm_id := Option.none
    node_type := 0
    uptime := 0
    capacity := ⟨0, 0, 0, 0⟩
    violation := ViolationCause.noViolation
    currently_violating := false }

/-- Modelled from the spec (§4.1): update the state of node `n`, creating it
on first sight. -/
def updateNode (sts : List NodeState) (n : NodeId) (f : NodeState → NodeState) :
    List NodeState :=
  if sts.any (fun s => s.node_id == n) then
    sts.map (fun s => if s.node_id == n then f s else s)
  else
    sts ++ [f (emptyNodeState n)]

/-- Modelled from the spec (§4.1, §4.2): the mutation one chain event performs
on the tracked node states.  A violation-start event records the cause only if
no violation was recorded yet this period (violations are not cured
retroactively, so a violation-end event clears only the momentary flag). -/
def applyEventToStates (sts : List NodeState) (e : ChainEvent) : List NodeState :=
  match e with
  | ChainEvent.uptimeReport n secs =>
      updateNode sts n (fun s => { s with uptime := s.uptime + secs })
  | ChainEvent.capacityReport n cap =>
      updateNode sts n (fun s => { s with capacity := cap })
  | ChainEvent.farmAssign n farm =>
      updateNode sts n (fun s => { s with farm_id := Option.some farm })
  | ChainEvent.violationStart n cause =>
      updateNode sts n (fun s =>
        { s with
          currently_violating := true
          violation :=
            if s.violation = ViolationCause.noViolation then cause else s.violation })
  | ChainEvent.violationEnd n =>
      updateNode sts n (fun s => { s with currently_violating := false })

/-- Modelled from the spec (§7): the error taxonomy of the Node State Tracker:
`InvalidStateError` signals a programming/ordering violation. -/
inductive TrackerError
  | invalidState
deriving DecidableEq, Repr

/-- Modelled from the spec (§4.1): the Node State Tracker holds one
accumulator per known node for the current period, plus the finalized flag. -/
structure Tracker where
  states : List NodeState
  finalized : Bool
deriving DecidableEq, Repr

/-- Modelled from the spec (§4.1): the fresh tracker at the start of a
period. -/
def Tracker.fresh : Tracker := { states := [], finalized := false }

/-- Modelled from the spec (§4.1): `apply(event)` mutates the NodeState for
the event's node; `apply` calls after `finalize` fail with
`InvalidStateError`. -/
def Tracker.apply (t : Tracker) (e : ChainEvent) : Except TrackerError Tracker :=
  if t.finalized then Except.error TrackerError.invalidState
  else Except.ok { t with states := applyEventToStates t.states e }

/-- Modelled from the spec (§4.1): `finalize()` closes the period and returns
the mapping from node identifiers (each `NodeState` carries its `node_id`) to
their accumulated states. -/
def Tracker.finalize (t : Tracker) : List NodeState × Tracker :=
  (t.states, { t with finalized := true })

/-- Modelled from the spec (§4.2): the Violation Detector is a pure function
over a finalized NodeState returning the violation verdict recorded for the
period. -/
def violationVerdict (s : NodeState) : ViolationCause := s.violation

/-- Modelled from the spec (§3): a period's nominal length in seconds.  The
constant is taken from `App.js` line 55, where the uptime percentage is
rendered as `100 * measured_uptime / 2630880`. -/
def periodLength : Nat := 2630880

/-- Modelled from the spec (§3): the derived, normalized CloudUnits triple
(CU, SU, NU), in integer smallest units. -/
structure CloudUnits where
  cu : Nat
  su : Nat
  nu : Nat
deriving DecidableEq, Repr

/-- Modelled from the spec (§3): a reward as token amount in the token's
smallest unit (`tft`, rendered in `App.js` line 65 as `tft / 1e7` TFT) plus
the fiat equivalent in milli-dollars (`musd`, rendered as `musd / 1e3` $). -/
structure Reward where
  tft : Nat
  musd : Nat
deriving DecidableEq, Repr

/-- Modelled from the spec (§4.3): the pricing input: the token-to-fiat
conversion price valid for the period (milli-dollars per whole token of 1e7
smallest units, as rendered in `App.js` line 65), and the period base rates in
token smallest units per cloud unit. -/
structure Pricing where
  tftConnectionPrice : Nat
  cuRate : Nat
  suRate : Nat
  nuRate : Nat
deriving DecidableEq, Repr

/-- Modelled from the spec (§4.3): cumulative uptime clamped to at most the
period's nominal length, the numerator of the uptime fraction. -/
def uptimeClamped (s : NodeState) : Nat := min s.uptime periodLength

/-- Modelled from the spec (§4.3): the uptime fraction of the period's
nominal length, as an exact rational (fixed-point/rational arithmetic only,
never floating point). -/
def uptimeFraction (s : NodeState) : ℚ :=
  (uptimeClamped s : ℚ) / (periodLength : ℚ)

/-- Modelled from the spec (§4.3): CloudUnits derived as resource quantity ×
uptime fraction × class-dependent weighting `w`, computed in integer
fixed-point (multiply first, divide by the period length last).  CU is driven
by compute resources (cru, mru), SU by storage resources (sru, hru); no
network quantity is tracked in `NodeState`, so NU is zero. -/
def cloudUnits (w : Nat) (s : NodeState) : CloudUnits :=
  { cu := (s.capacity.cru + s.capacity.mru) * w * uptimeClamped s / periodLength
    su := (s.capacity.sru + s.capacity.hru) * w * uptimeClamped s / periodLength
    nu := 0 }

/-- Modelled from the spec (§4.3): reward = CloudUnits × period base rate in
token smallest units, with the fiat equivalent computed from the recorded
conversion price (`musd = tft × price / 1e7`, consistent with `App.js`
line 65). -/
def computeReward (pr : Pricing) (cus : CloudUnits) : Reward :=
  let tft := cus.cu * pr.cuRate + cus.su * pr.suRate + cus.nu * pr.nuRate
  { tft := tft, musd := tft * pr.tftConnectionPrice / 10000000 }

/-- Modelled from the spec (§4.2): the zero reward paid to disqualified
nodes. -/
def zeroReward : Reward := { tft := 0, musd := 0 }

/-- Modelled from the spec (§4.2, §4.3): the reward entered on a node's
Minting receipt: zero when a violation was recorded for the period, the
calculator's output otherwise. -/
def mintedReward (pr : Pricing) (w : Nat) (s : NodeState) : Reward :=
  if violationVerdict s ≠ ViolationCause.noViolation then zeroReward
  else computeReward pr (cloudUnits w s)

/-- Modelled from the spec (§3): the receipt variant tag. -/
inductive Variant
  | minting
  | retry
  | fixup
deriving DecidableEq, Repr

/-- Modelled from the spec (§3): the content identity keying receipts within
a period: node + variant + target period. -/
structure ReceiptIdentity where
  node : NodeId
  variant : Variant
  period : Nat
deriving DecidableEq, Repr

/-- Modelled from the spec (§3): the Minting receipt variant, fields as
enumerated in §3 and displayed by the `App.js` Minting table. -/
structure MintingReceipt where
  node_id : NodeId
  node_type : Nat
  farm_id : Option FarmId
  farm_name : String
  measured_uptime : Nat
  cloud_units : CloudUnits
  resource_units : ResourceUnits
  reward : Reward
  tft_connection_price : Nat
  stellar_payout_address : Option String
deriving DecidableEq, Repr

/-- Modelled from the spec (§3): the Retry receipt variant: reference to the
original Minting receipt it redresses, previous and new payout address, and
the reward amount carried over unchanged (fields as displayed by the `App.js`
Retry table). -/
structure RetryReceipt where
  retry_for_receipt : ReceiptIdentity
  previous_stellar_payout_address : Option String
  stellar_payout_address : Option String
  reward : Reward
deriving DecidableEq, Repr

/-- Modelled from the spec (§4.6): the signed delta between correct and
minted CloudUnits. -/
structure CloudUnitsDelta where
  cu : Int
  su : Int
  nu : Int
deriving DecidableEq, Repr

/-- Modelled from the spec (§4.6): the signed delta between correct and
minted reward. -/
structure RewardDelta where
  tft : Int
  musd : Int
deriving DecidableEq, Repr

/-- Modelled from the spec (§3): the Fixup receipt variant: node/farm id,
three parallel CloudUnits triples (previously-minted, recomputed-correct,
delta), three parallel reward amounts, corrected payout address (fields as
displayed by the `App.js` Fixup table). -/
structure FixupReceipt where
  node_id : NodeId
  farm_id : Option FarmId
  minted_cloud_units : CloudUnits
  correct_cloud_units : CloudUnits
  fixup_cloud_units : CloudUnitsDelta
  minted_reward : Reward
  correct_reward : Reward
  fixup_reward : RewardDelta
  stellar_payout_address : Option String
deriving DecidableEq, Repr

/-- Modelled from the spec (§3, design note): the tagged sum of the three
receipt variants. -/
inductive Receipt
  | minting (r : MintingReceipt)
  | retry (r : RetryReceipt)
  | fixup (r : FixupReceipt)
deriving DecidableEq, Repr

/-- Modelled from the spec (§3): one persisted ledger record: the period it
is filed under, its content identity, and the receipt itself. -/
structure LedgerEntry where
  period : Nat
  identity : ReceiptIdentity
  receipt : Receipt
deriving DecidableEq, Repr

/-- Modelled from the spec (§3): the Receipt Ledger, an append-only,
period-partitioned store of issued receipts. -/
abbrev Ledger := List LedgerEntry

/-- Modelled from the spec (§7): the Receipt Generator's expected,
recoverable error: a receipt with the same identity already exists. -/
inductive EmitError
  | duplicateReceipt
deriving DecidableEq, Repr

/-- Modelled from the spec (§3): whether the ledger already holds a receipt
with the given content identity. -/
def hasIdentity (L : Ledger) (i : ReceiptIdentity) : Bool :=
  L.any (fun e => e.identity == i)

/-- Modelled from the spec (§4.4): persist a receipt under the given period,
failing with `DuplicateReceiptError` if a receipt with the same identity
already exists in the ledger. -/
def emitReceipt (L : Ledger) (period : Nat) (i : ReceiptIdentity) (r : Receipt) :
    Except EmitError Ledger :=
  if hasIdentity L i then Except.error EmitError.duplicateReceipt
  else Except.ok (L ++ [{ period := period, identity := i, receipt := r }])

/-- Modelled from the spec (§3): the content identity of a node's Minting
receipt for a period. -/
def mintIdentity (period : Nat) (n : NodeId) : ReceiptIdentity :=
  { node := n, variant := Variant.minting, period := period }

/-- Modelled from the spec (§3, §4.3): build the Minting receipt of a
finalized NodeState, with farm name and payout-address snapshot supplied by
the farm metadata collaborator (§6). -/
def buildMintingReceipt (pr : Pricing) (w : Nat) (s : NodeState)
    (farmName : String) (addr : Option String) : MintingReceipt :=
  { node_id := s.node_id
    node_type := s.node_type
    farm_id := s.farm_id
    farm_name := farmName
    measured_uptime := s.uptime
    cloud_units := cloudUnits w s
    resource_units := s.capacity
    reward := mintedReward pr w s
    tft_connection_price := pr.tftConnectionPrice
    stellar_payout_address := addr }

/-- Modelled from the spec (§4.4, §7): process one finalized NodeState in the
Receipt Generator: emit its Minting receipt, treating a
`DuplicateReceiptError` as "already done" on reruns rather than as a
failure.  The accumulator carries the ledger and the identities newly emitted
in this run. -/
def genStep (pr : Pricing) (w : Nat) (farmName : Option FarmId → String)
    (payoutAddr : Option FarmId → Option String) (period : Nat)
    (acc : Ledger × List ReceiptIdentity) (s : NodeState) :
    Ledger × List ReceiptIdentity :=
  let i := mintIdentity period s.node_id
  let r := Receipt.minting
    (buildMintingReceipt pr w s (farmName s.farm_id) (payoutAddr s.farm_id))
  match emitReceipt acc.1 period i r with
  | Except.ok L2 => (L2, acc.2 ++ [i])
  | Except.error _ => acc

/-- Modelled from the spec (§2, §4.4): emit the Minting receipts for all
finalized NodeStates of a period against the ledger, returning the updated
ledger and the identities newly emitted. -/
def generateMinting (pr : Pricing) (w : Nat) (farmName : Option FarmId → String)
    (payoutAddr : Option FarmId → Option String) (period : Nat)
    (states : List NodeState) (L : Ledger) : Ledger × List ReceiptIdentity :=
  states.foldl (genStep pr w farmName payoutAddr period) (L, [])

/-- Modelled from the spec (§3, §4.5): the content identity of the Retry
receipt covering an original Minting receipt: same node, retry variant, same
target period — so a payout is retried at most once. -/
def retryIdentity (orig : ReceiptIdentity) : ReceiptIdentity :=
  { node := orig.node, variant := Variant.retry, period := orig.period }

/-- Modelled from the spec (§3, §4.5): build the Retry receipt for an unpaid
Minting receipt: reference to the original, previous payout address, the
farm's current payout address, and the reward carried over unchanged. -/
def buildRetryReceipt (orig : ReceiptIdentity) (m : MintingReceipt)
    (newAddr : Option String) : RetryReceipt :=
  { retry_for_receipt := orig
    previous_stellar_payout_address := m.stellar_payout_address
    stellar_payout_address := newAddr
    reward := m.reward }

/-- Modelled from the spec (§3, §4.5): the Minting receipts the ledger holds
for a given period, with their identities. -/
def mintingReceiptsOf (L : Ledger) (period : Nat) :
    List (ReceiptIdentity × MintingReceipt) :=
  L.filterMap (fun e =>
    match e.receipt with
    | Receipt.minting m =>
        if e.period = period then Option.some (e.identity, m) else Option.none
    | _ => Option.none)

/-- Modelled from the spec (§4.5): process one prior-period Minting receipt
in the Retry Resolver: query payment status via the external collaborator;
if unpaid, emit a Retry receipt to the farm's current payout address, filed
under the current period; a duplicate identity (the receipt is already
covered by a Retry receipt) means "already retried" and emits nothing. -/
def retryStep (currentPeriod : Nat) (isPaid : Option String → Nat → Bool)
    (currentAddr : Option FarmId → Option String)
    (acc : Ledger × List ReceiptIdentity)
    (im : ReceiptIdentity × MintingReceipt) : Ledger × List ReceiptIdentity :=
  if isPaid im.2.stellar_payout_address im.2.reward.tft then acc
  else
    let ri := retryIdentity im.1
    let r := Receipt.retry (buildRetryReceipt im.1 im.2 (currentAddr im.2.farm_id))
    match emitReceipt acc.1 currentPeriod ri r with
    | Except.ok L2 => (L2, acc.2 ++ [ri])
    | Except.error _ => acc

/-- Modelled from the spec (§4.5): the Retry Resolver runs once per period,
operating on the previous period's Minting receipts only, returning the
updated ledger and the identities of the Retry receipts newly emitted. -/
def retryResolve (L : Ledger) (currentPeriod : Nat)
    (isPaid : Option String → Nat → Bool)
    (currentAddr : Option FarmId → Option String) : Ledger × List ReceiptIdentity :=
  (mintingReceiptsOf L (currentPeriod - 1)).foldl
    (retryStep currentPeriod isPaid currentAddr) (L, [])

/-- Modelled from the spec (§4.6): delta = correct − minted, componentwise on
the CloudUnits triple. -/
def cloudUnitsDelta (minted correct : CloudUnits) : CloudUnitsDelta :=
  { cu := (correct.cu : Int) - (minted.cu : Int)
    su := (correct.su : Int) - (minted.su : Int)
    nu := (correct.nu : Int) - (minted.nu : Int) }

/-- Modelled from the spec (§4.6): delta = correct − minted on the reward. -/
def rewardDelta (minted correct : Reward) : RewardDelta :=
  { tft := (correct.tft : Int) - (minted.tft : Int)
    musd := (correct.musd : Int) - (minted.musd : Int) }

/-- Modelled from the spec (§4.6): the Fixup Resolver's decision for one
node: compare the recomputed-correct totals against what the ledger shows was
minted; if the reward delta is non-zero, produce a Fixup receipt preserving
all three totals; if it is zero, produce nothing (no-op). -/
def fixupReceiptFor (node : NodeId) (farm : Option FarmId) (addr : Option String)
    (mintedCU correctCU : CloudUnits) (mintedR correctR : Reward) :
    Option FixupReceipt :=
  if (rewardDelta mintedR correctR).tft = 0 then Option.none
  else
    Option.some
      { node_id := node
        farm_id := farm
        minted_cloud_units := mintedCU
        correct_cloud_units := correctCU
        fixup_cloud_units := cloudUnitsDelta mintedCU correctCU
        minted_reward := mintedR
        correct_reward := correctR
        fixup_reward := rewardDelta mintedR correctR
        stellar_payout_address := addr }

/-- Modelled from the spec (§2, §4.4): the ledger-writing operations of one
run, as invoked by the Receipt Generator: each names the period the receipt
is filed under — for a Fixup receipt the period in which the correction is
discovered. -/
inductive LedgerOp
  | emitMinting (period : Nat) (r : MintingReceipt)
  | emitRetry (period : Nat) (orig : ReceiptIdentity) (r : RetryReceipt)
  | emitFixup (period : Nat) (r : FixupReceipt)
deriving DecidableEq, Repr

/-- Modelled from the spec (§4.4, §7): apply one ledger-writing operation; a
`DuplicateReceiptError` is recoverable and leaves the ledger unchanged. -/
def applyOp (L : Ledger) (op : LedgerOp) : Ledger :=
  match op with
  | LedgerOp.emitMinting p r =>
      match emitReceipt L p (mintIdentity p r.node_id) (Receipt.minting r) with
      | Except.ok L2 => L2
      | Except.error _ => L
  | LedgerOp.emitRetry p orig r =>
      match emitReceipt L p (retryIdentity orig) (Receipt.retry r) with
      | Except.ok L2 => L2
      | Except.error _ => L
  | LedgerOp.emitFixup p r =>
      match emitReceipt L p
          { node := r.node_id, variant := Variant.fixup, period := p }
          (Receipt.fixup r) with
      | Except.ok L2 => L2
      | Except.error _ => L

/-- Modelled from the spec (§3): apply a sequence of ledger-writing
operations in order. -/
def applyOps (L : Ledger) (ops : List LedgerOp) : Ledger :=
  ops.foldl applyOp L

/-- Modelled from the spec (§3, §4.7): one serialized record of a Snapshot:
a flat image of a NodeState's fields. -/
structure SnapshotEntry where
  node_id : Nat
  farm_set : Bool
  farm_id : Nat
  node_type : Nat
  uptime : Nat
  cru : Nat
  mru : Nat
  sru : Nat
  hru : Nat
  violation_code : Nat
  currently_violating : Bool
deriving DecidableEq, Repr

/-- Modelled from the spec (§3): a Snapshot, the serializable image of all
NodeState entries at a period boundary. -/
abbrev Snapshot := List SnapshotEntry

/-- Modelled from the spec (§4.2): serialize a violation cause. -/
def encodeViolation : ViolationCause → Nat
  | ViolationCause.noViolation => 0
  | ViolationCause.excessiveDowntime => 1
  | ViolationCause.capacityMismatch => 2
  | ViolationCause.other => 3

/-- Modelled from the spec (§4.2): deserialize a violation cause. -/
def decodeViolation : Nat → ViolationCause
  | 0 => ViolationCause.noViolation
  | 1 => ViolationCause.excessiveDowntime
  | 2 => ViolationCause.capacityMismatch
  | _ => ViolationCause.other

/-- Modelled from the spec (§4.7): serialize one NodeState. -/
def encodeState (s : NodeState) : SnapshotEntry :=
  { node_id := s.node_id
    farm_set := s.farm_id.isSome
    farm_id := s.farm_id.getD 0
    node_type := s.node_type
    uptime := s.uptime
    cru := s.capacity.cru
    mru := s.capacity.mru
    sru := s.capacity.sru
    hru := s.capacity.hru
    violation_code := encodeViolation s.violation
    currently_violating := s.currently_violating }

/-- Modelled from the spec (§4.7): deserialize one NodeState. -/
def decodeState (e : SnapshotEntry) : NodeState :=
  { node_id := e.node_id
    farm_id := if e.farm_set then Option.some e.farm_id else Option.none
    node_type := e.node_type
    uptime := e.uptime
    capacity := { cru := e.cru, mru := e.mru, sru := e.sru, hru := e.hru }
    violation := decodeViolation e.violation_code
    currently_violating := e.currently_violating }

/-- Modelled from the spec (§4.7): the Snapshot Manager's `save`: serialize
all NodeState entries at a period boundary. -/
def saveSnapshot (states : List NodeState) : Snapshot :=
  states.map encodeState

/-- Modelled from the spec (§4.7): the Snapshot Manager's `load`:
deserialize the saved NodeState entries. -/
def loadSnapshot (snap : Snapshot) : List NodeState :=
  snap.map decodeState

/-- Modelled from the spec (§5): apply a period's chain events to the node
states in their chain-canonical order. -/
def applyEvents (sts : List NodeState) (evs : List ChainEvent) : List NodeState :=
  evs.foldl applyEventToStates sts

/-- Modelled from the spec (§2, §4.7): replay the full chain history (the
event lists of the successive periods, in order) from genesis, yielding the
node states at the last period boundary. -/
def replayStates (history : List (List ChainEvent)) : List NodeState :=
  history.foldl applyEvents []

/-- Modelled from the spec (§2): process one period from its boundary node
states: apply the period's events, finalize, and emit the Minting receipts
against the ledger. -/
def processPeriod (pr : Pricing) (w : Nat) (farmName : Option FarmId → String)
    (payoutAddr : Option FarmId → Option String) (period : Nat)
    (startStates : List NodeState) (evs : List ChainEvent) (L : Ledger) :
    Ledger × List ReceiptIdentity :=
  generateMinting pr w farmName payoutAddr period (applyEvents startStates evs) L

/-- Modelled from the spec (§4.7): process period `period` from a full
replay of chain history up to its start. -/
def processFromReplay (pr : Pricing) (w : Nat) (farmName : Option FarmId → String)
    (payoutAddr : Option FarmId → Option String) (period : Nat)
    (history : List (List ChainEvent)) (evs : List ChainEvent) (L : Ledger) :
    Ledger × List ReceiptIdentity :=
  processPeriod pr w farmName payoutAddr period (replayStates history) evs L

/-- Modelled from the spec (§4.7): process period `period` resuming from a
saved snapshot of the prior period boundary. -/
def processFromSnapshot (pr : Pricing) (w : Nat) (farmName : Option FarmId → String)
    (payoutAddr : Option FarmId → Option String) (period : Nat)
    (snap : Snapshot) (evs : List ChainEvent) (L : Ledger) :
    Ledger × List ReceiptIdentity :=
  processPeriod pr w farmName payoutAddr period (loadSnapshot snap) evs L

/-- Modelled from the spec (§4.3): the maximum reward a node's capacity can
earn in the period: the calculator's output at full uptime. -/
def maxPeriodReward (pr : Pricing) (w : Nat) (s : NodeState) : Reward :=
  computeReward pr (cloudUnits w { s with uptime := periodLength })

/-- A concrete Minting receipt used to exercise the resolvers. -/
def sampleMinting (n : NodeId) : MintingReceipt :=
  { node_id := n
    node_type := 0
    farm_id := Option.none
    farm_name := "farm"
    measured_uptime := 0
    cloud_units := ⟨0, 0, 0⟩
    resource_units := ⟨0, 0, 0, 0⟩
    reward := { tft := 5, musd := 0 }
    tft_connection_price := 0
    stellar_payout_address := Option.none }

/-- A concrete Retry receipt covering `sampleMinting 7` of period 1. -/
def sampleRetry : RetryReceipt :=
  buildRetryReceipt (mintIdentity 1 7) (sampleMinting 7) Option.none

/-- A concrete ledger: period 1 holds Minting receipts for nodes 7 and 9; the
one for node 7 is already covered by a Retry receipt filed under period 2. -/
def sampleLedger : Ledger :=
  [ { period := 1, identity := mintIdentity 1 7
      receipt := Receipt.minting (sampleMinting 7) },
    { period := 1, identity := mintIdentity 1 9
      receipt := Receipt.minting (sampleMinting 9) },
    { period := 2, identity := retryIdentity (mintIdentity 1 7)
      receipt := Receipt.retry sampleRetry } ]

/-- A concrete Fixup receipt, under-minted by 3 tft. -/
def sampleFixup : FixupReceipt :=
  { node_id := 2
    farm_id := Option.none
    minted_cloud_units := ⟨1, 2, 3⟩
    correct_cloud_units := ⟨4, 5, 6⟩
    fixup_cloud_units := ⟨3, 3, 3⟩
    minted_reward := { tft := 10, musd := 1 }
    correct_reward := { tft := 7, musd := 2 }
    fixup_reward := { tft := -3, musd := 1 }
    stellar_payout_address := Option.none }

/-- A concrete node state reporting more uptime than the period length, with
zero capacity. -/
def sampleOverUptime : NodeState :=
  { node_id := 1
    farm_id := Option.none
    node_type := 0
    uptime := 3000000
    capacity := ⟨0, 0, 0, 0⟩
    violation := ViolationCause.noViolation
    currently_violating := false }

/-- A concrete node state with plenty of capacity and a recorded violation. -/
def sampleViolating : NodeState :=
  { node_id := 4
    farm_id := Option.some 2
    node_type := 1
    uptime := 2000000
    capacity := ⟨4, 8, 100, 200⟩
    violation := ViolationCause.excessiveDowntime
    currently_violating := false }

/-- A concrete pricing input. -/
def samplePricing : Pricing :=
  { tftConnectionPrice := 1000, cuRate := 10, suRate := 5, nuRate := 2 }

/-- The ledger entry `sampleFixup` produces when filed under period 3. -/
def sampleFixupEntry : LedgerEntry :=
  { period := 3
    identity := { node := 2, variant := Variant.fixup, period := 3 }
    receipt := Receipt.fixup sampleFixup }

end Minting

namespace Minting

theorem hasIdentity_append (L : Ledger) (e : LedgerEntry) (i : ReceiptIdentity) :
    hasIdentity (L ++ [e]) i = (hasIdentity L i || (e.identity == i)) := by
  simp [hasIdentity, List.any_append]

theorem decode_encode (s : NodeState) : decodeState (encodeState s) = s := by
  cases s with
  | mk n f t u cap v c => cases f <;> cases v <;> rfl

theorem load_save (states : List NodeState) :
    loadSnapshot (saveSnapshot states) = states := by
  induction states with
  | nil => rfl
  | cons s t ih =>
      show decodeState (encodeState s) :: loadSnapshot (saveSnapshot t) = s :: t
      rw [decode_encode, ih]

theorem genStep_eq (pr : Pricing) (w : Nat) (fn : Option FarmId → String)
    (pa : Option FarmId → Option String) (period : Nat)
    (acc : Ledger × List ReceiptIdentity) (s : NodeState) :
    genStep pr w fn pa period acc s =
      if hasIdentity acc.1 (mintIdentity period s.node_id) then acc
      else
        (acc.1 ++ [{ period := period, identity := mintIdentity period s.node_id
                     receipt := Receipt.minting
                       (buildMintingReceipt pr w s (fn s.farm_id) (pa s.farm_id)) }],
         acc.2 ++ [mintIdentity period s.node_id]) := by
  cases h : hasIdentity acc.1 (mintIdentity period s.node_id) <;>
    simp [genStep, emitReceipt, h]

theorem genStep_preserves (pr : Pricing) (w : Nat) (fn : Option FarmId → String)
    (pa : Option FarmId → Option String) (period : Nat)
    (acc : Ledger × List ReceiptIdentity) (s : NodeState) (i : ReceiptIdentity)
    (h : hasIdentity acc.1 i = true) :
    hasIdentity (genStep pr w fn pa period acc s).1 i = true := by
  rw [genStep_eq]
  split
  · exact h
  · simp [hasIdentity_append, h]

theorem genStep_self (pr : Pricing) (w : Nat) (fn : Option FarmId → String)
    (pa : Option FarmId → Option String) (period : Nat)
    (acc : Ledger × List ReceiptIdentity) (s : NodeState) :
    hasIdentity (genStep pr w fn pa period acc s).1
      (mintIdentity period s.node_id) = true := by
  rw [genStep_eq]
  split <;> simp_all [hasIdentity_append]

theorem foldl_genStep_preserves (pr : Pricing) (w : Nat)
    (fn : Option FarmId → String) (pa : Option FarmId → Option String)
    (period : Nat) (states : List NodeState) :
    ∀ (acc : Ledger × List ReceiptIdentity) (i : ReceiptIdentity),
      hasIdentity acc.1 i = true →
      hasIdentity (states.foldl (genStep pr w fn pa period) acc).1 i = true := by
  induction states with
  | nil => intro acc i h; exact h
  | cons a t ih =>
      intro acc i h
      simp only [List.foldl_cons]
      exact ih _ i (genStep_preserves pr w fn pa period acc a i h)

theorem foldl_genStep_mem (pr : Pricing) (w : Nat) (fn : Option FarmId → String)
    (pa : Option FarmId → Option String) (period : Nat) (states : List NodeState) :
    ∀ (acc : Ledger × List ReceiptIdentity) (s : NodeState), s ∈ states →
      hasIdentity (states.foldl (genStep pr w fn pa period) acc).1
        (mintIdentity period s.node_id) = true := by
  induction states with
  | nil => intro acc s h; cases h
  | cons a t ih =>
      intro acc s h
      simp only [List.foldl_cons]
      rcases List.mem_cons.mp h with rfl | h'
      · exact foldl_genStep_preserves pr w fn pa period t _ _
          (genStep_self pr w fn pa period acc s)
      · exact ih _ s h'

theorem foldl_genStep_noNew (pr : Pricing) (w : Nat) (fn : Option FarmId → String)
    (pa : Option FarmId → Option String) (period : Nat) (states : List NodeState) :
    ∀ (acc : Ledger × List ReceiptIdentity),
      (∀ s ∈ states, hasIdentity acc.1 (mintIdentity period s.node_id) = true) →
      states.foldl (genStep pr w fn pa period) acc = acc := by
  induction states with
  | nil => intro acc _; rfl
  | cons a t ih =>
      intro acc h
      simp only [List.foldl_cons]
      have ha : genStep pr w fn pa period acc a = acc := by
        rw [genStep_eq]
        simp [h a (List.mem_cons_self a t)]
      rw [ha]
      exact ih acc (fun s hs => h s (List.mem_cons_of_mem a hs))

/-- Claim C4: re-running period N's Minting receipt generation against a
ledger that already contains period N's receipts is a no-op: the content
identity (node + variant + target period) of every receipt is already
present, so zero new receipts are emitted and the ledger is unchanged; the
`DuplicateReceiptError` raised inside is recoverable ("already done"), never
surfaced as a failure. -/
theorem generateMinting_rerun_noop (pr : Pricing) (w : Nat)
    (fn : Option FarmId → String) (pa : Option FarmId → Option String)
    (period : Nat) (states : List NodeState) (L : Ledger) :
    generateMinting pr w fn pa period states
        (generateMinting pr w fn pa period states L).1 =
      ((generateMinting pr w fn pa period states L).1, []) := by
  unfold generateMinting
  exact foldl_genStep_noNew pr w fn pa period states _
    (fun s hs => foldl_genStep_mem pr w fn pa period states (L, []) s hs)

/-- Claim C7: after the Node State Tracker's `finalize()` has been called for
a period, every subsequent `apply(event)` call fails with
`InvalidStateError`, and `finalize` returns the accumulated per-node states
(each keyed by its `node_id`). -/
theorem finalize_closes_tracker (t : Tracker) (e : ChainEvent) :
    Tracker.apply t.finalize.2 e = Except.error TrackerError.invalidState ∧
      t.finalize.1 = t.states := by
  constructor
  · simp [Tracker.finalize, Tracker.apply]
  · rfl

/-- Claim C1: the pipeline is a pure function of the period's chain events,
so running it twice from fresh state on an identical event sequence yields
identical receipts; and processing a period from a snapshot saved at the
prior period boundary yields exactly the receipts of a full replay of chain
history. -/
theorem pipeline_deterministic (pr : Pricing) (w : Nat)
    (fn : Option FarmId → String) (pa : Option FarmId → Option String)
    (period : Nat) (history : List (List ChainEvent)) (evs : List ChainEvent)
    (L : Ledger) :
    processFromReplay pr w fn pa period history evs L =
        processFromReplay pr w fn pa period history evs L ∧
      processFromSnapshot pr w fn pa period
          (saveSnapshot (replayStates history)) evs L =
        processFromReplay pr w fn pa period history evs L := by
  refine ⟨rfl, ?_⟩
  simp [processFromSnapshot, processFromReplay, load_save]

/-- Claim C2: for every finalized NodeState whose violation verdict is not
None, the emitted Minting receipt has reward exactly zero regardless of its
resource and uptime values, and a Minting receipt is still emitted (its
content identity appears in the ledger, the node is not silently dropped);
moreover a node that violated mid-period and then stopped violating before
period end still ends the period with a non-None verdict. -/
theorem violation_zeroes_reward :
    (∀ (pr : Pricing) (w : Nat) (fn : Option FarmId → String)
       (pa : Option FarmId → Option String) (period : Nat)
       (states : List NodeState) (L : Ledger) (s : NodeState), s ∈ states →
       violationVerdict s ≠ ViolationCause.noViolation →
       (buildMintingReceipt pr w s (fn s.farm_id) (pa s.farm_id)).reward
           = zeroReward ∧
         hasIdentity (generateMinting pr w fn pa period states L).1
           (mintIdentity period s.node_id) = true) ∧
    (∀ (n : NodeId) (c : ViolationCause), c ≠ ViolationCause.noViolation →
       ∀ s ∈ applyEvents []
           [ChainEvent.violationStart n c, ChainEvent.violationEnd n],
         violationVerdict s ≠ ViolationCause.noViolation) := by
  constructor
  · intro pr w fn pa period states L s hs hv
    constructor
    · simp [buildMintingReceipt, mintedReward, hv]
    · exact foldl_genStep_mem pr w fn pa period states (L, []) s hs
  · intro n c hc s hs
    simp [applyEvents, applyEventToStates, updateNode, emptyNodeState] at hs
    subst hs
    simpa [violationVerdict] using hc

/-- Claim C6: the Reward Calculator clamps the uptime fraction to [0, 1]; a
node reporting cumulative uptime greater than the period's nominal length
gets an uptime fraction of exactly 1 and a reward that never exceeds the
maximum reward for the period; and a node with zero capacity for the whole
period yields a reward of exactly zero rather than an error. -/
theorem uptime_clamped_and_zero_capacity (pr : Pricing) (w : Nat) (s : NodeState) :
    (0 ≤ uptimeFraction s ∧ uptimeFraction s ≤ 1) ∧
    (s.uptime > periodLength → uptimeFraction s = 1) ∧
    (mintedReward pr w s).tft ≤ (maxPeriodReward pr w s).tft ∧
    (s.capacity = ⟨0, 0, 0, 0⟩ → mintedReward pr w s = zeroReward) := by
  have hL : (0 : ℚ) < (periodLength : ℚ) := by norm_num [periodLength]
  have hcu : (cloudUnits w s).cu ≤ (cloudUnits w { s with uptime := periodLength }).cu := by
    simp only [cloudUnits, uptimeClamped, min_self]
    exact Nat.div_le_div_right (Nat.mul_le_mul_left _ (min_le_right _ _))
  have hsu : (cloudUnits w s).su ≤ (cloudUnits w { s with uptime := periodLength }).su := by
    simp only [cloudUnits, uptimeClamped, min_self]
    exact Nat.div_le_div_right (Nat.mul_le_mul_left _ (min_le_right _ _))
  have htft : (computeReward pr (cloudUnits w s)).tft ≤ (maxPeriodReward pr w s).tft := by
    simp only [computeReward, maxPeriodReward]
    exact Nat.add_le_add
      (Nat.add_le_add (Nat.mul_le_mul_right _ hcu) (Nat.mul_le_mul_right _ hsu))
      (Nat.mul_le_mul_right _ (le_refl (cloudUnits w s).nu))
  refine ⟨⟨?_, ?_⟩, ?_, ?_, ?_⟩
  · simp only [uptimeFraction]
    apply div_nonneg <;> exact_mod_cast Nat.zero_le _
  · simp only [uptimeFraction, uptimeClamped]
    rw [div_le_one hL]
    exact_mod_cast Nat.min_le_right s.uptime periodLength
  · intro h
    simp only [uptimeFraction, uptimeClamped]
    rw [min_eq_right h.le]
    exact div_self (ne_of_gt hL)
  · simp only [mintedReward]
    split
    · exact Nat.zero_le _
    · exact htft
  · intro h
    simp only [mintedReward]
    split
    · rfl
    · simp [computeReward, cloudUnits, h, zeroReward]

/-- Witness for C6 at a concrete input: `sampleOverUptime` reports 3 000 000
seconds of uptime in a 2 630 880-second period and zero capacity, so its
uptime fraction is exactly 1 and its reward is exactly zero. -/
theorem uptime_clamped_witness :
    uptimeFraction sampleOverUptime = 1 ∧
      mintedReward samplePricing 3 sampleOverUptime = zeroReward := by
  have h := uptime_clamped_and_zero_capacity samplePricing 3 sampleOverUptime
  exact ⟨h.2.1 (by decide), h.2.2.2 (by rfl)⟩

/-- Witness for C2 at a concrete input: the violating node `sampleViolating`
(which has ample capacity and uptime) gets a zero-reward Minting receipt that
is still entered in the ledger, and a node that violates and then stops
violating still ends the period with a non-None verdict. -/
theorem violation_zeroes_reward_witness :
    ((buildMintingReceipt samplePricing 3 sampleViolating
        ((fun _ => "farm") sampleViolating.farm_id)
        ((fun _ => Option.none) sampleViolating.farm_id)).reward = zeroReward ∧
      hasIdentity
        (generateMinting samplePricing 3 (fun _ => "farm") (fun _ => Option.none)
          1 [sampleViolating] []).1
        (mintIdentity 1 sampleViolating.node_id) = true) ∧
    violationVerdict
      { node_id := 5, farm_id := Option.none, node_type := 0, uptime := 0
        capacity := ⟨0, 0, 0, 0⟩, violation := ViolationCause.other
        currently_violating := false } ≠ ViolationCause.noViolation := by
  refine ⟨violation_zeroes_reward.1 samplePricing 3 (fun _ => "farm")
    (fun _ => Option.none) 1 [sampleViolating] [] sampleViolating
    (by decide) (by decide), ?_⟩
  exact violation_zeroes_reward.2 5 ViolationCause.other (by decide) _ (by decide)

/-- Claim C3: every Fixup receipt produced by the Fixup Resolver satisfies
delta = correct − minted exactly, componentwise on the CU, SU, NU triple and
on the reward, with all three totals preserved; a receipt is produced iff the
reward delta is non-zero; and the delta may be negative (over-minted) as well
as positive (under-minted). -/
theorem fixup_conservation :
    (∀ (node : NodeId) (farm : Option FarmId) (addr : Option String)
       (mintedCU correctCU : CloudUnits) (mintedR correctR : Reward)
       (r : FixupReceipt),
       fixupReceiptFor node farm addr mintedCU correctCU mintedR correctR
           = Option.some r →
       r.fixup_cloud_units.cu = (correctCU.cu : Int) - (mintedCU.cu : Int) ∧
       r.fixup_cloud_units.su = (correctCU.su : Int) - (mintedCU.su : Int) ∧
       r.fixup_cloud_units.nu = (correctCU.nu : Int) - (mintedCU.nu : Int) ∧
       r.fixup_reward.tft = (correctR.tft : Int) - (mintedR.tft : Int) ∧
       r.fixup_reward.musd = (correctR.musd : Int) - (mintedR.musd : Int) ∧
       r.minted_cloud_units = mintedCU ∧ r.correct_cloud_units = correctCU ∧
       r.minted_reward = mintedR ∧ r.correct_reward = correctR) ∧
    (∀ (node : NodeId) (farm : Option FarmId) (addr : Option String)
       (mintedCU correctCU : CloudUnits) (mintedR correctR : Reward),
       (fixupReceiptFor node farm addr mintedCU correctCU mintedR correctR).isSome
         ↔ (rewardDelta mintedR correctR).tft ≠ 0) ∧
    ((rewardDelta { tft := 10, musd := 1 } { tft := 7, musd := 2 }).tft < 0 ∧
      fixupReceiptFor 2 Option.none Option.none ⟨1, 2, 3⟩ ⟨4, 5, 6⟩
          { tft := 10, musd := 1 } { tft := 7, musd := 2 }
        = Option.some sampleFixup) ∧
    ((rewardDelta { tft := 7, musd := 2 } { tft := 10, musd := 1 }).tft > 0 ∧
      (fixupReceiptFor 2 Option.none Option.none ⟨1, 2, 3⟩ ⟨4, 5, 6⟩
          { tft := 7, musd := 2 } { tft := 10, musd := 1 }).isSome = true) := by
  refine ⟨?_, ?_, by decide, by decide⟩
  · intro node farm addr mintedCU correctCU mintedR correctR r h
    simp only [fixupReceiptFor] at h
    split at h
    · simp at h
    · injection h with h2
      subst h2
      exact ⟨rfl, rfl, rfl, rfl, rfl, rfl, rfl, rfl, rfl⟩
  · intro node farm addr mintedCU correctCU mintedR correctR
    simp only [fixupReceiptFor]
    split <;> simp_all

/-- Witness for C3 at a concrete input: for minted reward 10 tft and correct
reward 7 tft the emitted receipt records the delta 7 − 10, and a receipt is
produced iff the reward delta is non-zero. -/
theorem fixup_conservation_witness :
    sampleFixup.fixup_reward.tft = ((7 : Nat) : Int) - ((10 : Nat) : Int) ∧
      ((fixupReceiptFor 2 Option.none Option.none ⟨1, 2, 3⟩ ⟨4, 5, 6⟩
          { tft := 10, musd := 1 } { tft := 7, musd := 2 }).isSome
        ↔ (rewardDelta { tft := 10, musd := 1 } { tft := 7, musd := 2 }).tft ≠ 0) := by
  refine ⟨?_, fixup_conservation.2.1 2 Option.none Option.none
    ⟨1, 2, 3⟩ ⟨4, 5, 6⟩ { tft := 10, musd := 1 } { tft := 7, musd := 2 }⟩
  exact (fixup_conservation.1 2 Option.none Option.none ⟨1, 2, 3⟩ ⟨4, 5, 6⟩
    { tft := 10, musd := 1 } { tft := 7, musd := 2 } sampleFixup
    (by decide)).2.2.2.1

theorem retryStep_eq (p : Nat) (ip : Option String → Nat → Bool)
    (ca : Option FarmId → Option String) (acc : Ledger × List ReceiptIdentity)
    (im : ReceiptIdentity × MintingReceipt) :
    retryStep p ip ca acc im =
      if ip im.2.stellar_payout_address im.2.reward.tft then acc
      else if hasIdentity acc.1 (retryIdentity im.1) then acc
      else
        (acc.1 ++ [{ period := p, identity := retryIdentity im.1
                     receipt := Receipt.retry
                       (buildRetryReceipt im.1 im.2 (ca im.2.farm_id)) }],
         acc.2 ++ [retryIdentity im.1]) := by
  cases h1 : ip im.2.stellar_payout_address im.2.reward.tft <;>
    cases h2 : hasIdentity acc.1 (retryIdentity im.1) <;>
      simp [retryStep, emitReceipt, h1, h2]

theorem foldl_retryStep_covered (p : Nat) (ip : Option String → Nat → Bool)
    (ca : Option FarmId → Option String)
    (l : List (ReceiptIdentity × MintingReceipt)) :
    ∀ (acc : Ledger × List ReceiptIdentity) (j : ReceiptIdentity),
      hasIdentity acc.1 j = true → j ∉ acc.2 →
      j ∉ (l.foldl (retryStep p ip ca) acc).2 ∧
        hasIdentity (l.foldl (retryStep p ip ca) acc).1 j = true := by
  induction l with
  | nil => intro acc j h hj; exact ⟨hj, h⟩
  | cons a t ih =>
      intro acc j h hj
      simp only [List.foldl_cons]
      rw [retryStep_eq]
      split
      · exact ih acc j h hj
      · split
        · exact ih acc j h hj
        · apply ih
          · simp [hasIdentity_append, h]
          · simp only [List.mem_append, List.mem_singleton]
            rintro (hl | rfl)
            · exact hj hl
            · simp_all

theorem foldl_retryStep_sources (p : Nat) (ip : Option String → Nat → Bool)
    (ca : Option FarmId → Option String)
    (l : List (ReceiptIdentity × MintingReceipt)) :
    ∀ (acc : Ledger × List ReceiptIdentity) (j : ReceiptIdentity),
      j ∈ (l.foldl (retryStep p ip ca) acc).2 →
      j ∈ acc.2 ∨ ∃ im ∈ l, j = retryIdentity im.1 := by
  induction l with
  | nil => intro acc j h; exact Or.inl h
  | cons a t ih =>
      intro acc j h
      simp only [List.foldl_cons] at h
      rcases ih _ j h with hl | ⟨im, him, rfl⟩
      · rw [retryStep_eq] at hl
        split at hl
        · exact Or.inl hl
        · split at hl
          · exact Or.inl hl
          · simp only [List.mem_append, List.mem_singleton] at hl
            rcases hl with hl | rfl
            · exact Or.inl hl
            · exact Or.inr ⟨a, List.mem_cons_self a t, rfl⟩
      · exact Or.inr ⟨im, List.mem_cons_of_mem a him, rfl⟩

theorem mem_mintingReceiptsOf (L : Ledger) (period : Nat)
    (im : ReceiptIdentity × MintingReceipt) (h : im ∈ mintingReceiptsOf L period) :
    ∃ e ∈ L, e.period = period ∧ e.receipt = Receipt.minting im.2 ∧
      e.identity = im.1 := by
  simp only [mintingReceiptsOf, List.mem_filterMap] at h
  rcases h with ⟨e, he, hf⟩
  refine ⟨e, he, ?_⟩
  cases hr : e.receipt with
  | minting m =>
      rw [hr] at hf
      change (if e.period = period then Option.some (e.identity, m)
        else Option.none) = Option.some im at hf
      split at hf
      · injection hf with h2
        subst h2
        exact ⟨by assumption, rfl, rfl⟩
      · exact Option.noConfusion hf
  | retry r => rw [hr] at hf; exact Option.noConfusion hf
  | fixup r => rw [hr] at hf; exact Option.noConfusion hf

/-- Claim C5: Retry resolution is idempotent — a prior-period Minting receipt
already covered by a Retry receipt in the ledger gets no second Retry receipt
from another run on the same ledger state — and the Retry Resolver operates
only on the immediately previous period's Minting receipts: every Retry
receipt it emits covers a Minting receipt the ledger holds for period
`p - 1`, never further back. -/
theorem retry_no_repeat (L : Ledger) (p : Nat)
    (isPaid : Option String → Nat → Bool)
    (currentAddr : Option FarmId → Option String) :
    (∀ orig : ReceiptIdentity, hasIdentity L (retryIdentity orig) = true →
       retryIdentity orig ∉ (retryResolve L p isPaid currentAddr).2) ∧
    (∀ j ∈ (retryResolve L p isPaid currentAddr).2,
       ∃ e ∈ L, e.period = p - 1 ∧ (∃ m, e.receipt = Receipt.minting m) ∧
         j = retryIdentity e.identity) := by
  constructor
  · intro orig h
    exact (foldl_retryStep_covered p isPaid currentAddr
      (mintingReceiptsOf L (p - 1)) (L, []) (retryIdentity orig) h
      (List.not_mem_nil _)).1
  · intro j hj
    rcases foldl_retryStep_sources p isPaid currentAddr
        (mintingReceiptsOf L (p - 1)) (L, []) j hj with h0 | ⟨im, him, rfl⟩
    · cases h0
    · rcases mem_mintingReceiptsOf L (p - 1) im him with ⟨e, he, hp, hr, hi⟩
      exact ⟨e, he, hp, ⟨im.2, hr⟩, by rw [hi]⟩

/-- Witness for C5 at a concrete input: in `sampleLedger` the period-1
Minting receipt of node 7 is already covered by a Retry receipt, so running
Retry resolution for period 2 emits no second Retry for it, while the Retry
receipt it emits for node 9 covers a period-1 Minting receipt. -/
theorem retry_no_repeat_witness :
    retryIdentity (mintIdentity 1 7) ∉
        (retryResolve sampleLedger 2 (fun _ _ => false) (fun _ => Option.none)).2 ∧
      ∃ e ∈ sampleLedger, e.period = 2 - 1 ∧
        (∃ m, e.receipt = Receipt.minting m) ∧
        retryIdentity (mintIdentity 1 9) = retryIdentity e.identity := by
  have h := retry_no_repeat sampleLedger 2 (fun _ _ => false) (fun _ => Option.none)
  exact ⟨h.1 (mintIdentity 1 7) (by decide),
    h.2 (retryIdentity (mintIdentity 1 9)) (by decide)⟩

/-- Claim C8: an unset payout address is never a failure: a Retry receipt for
a farm whose current payout address is unset is still emitted, recording the
address explicitly as not set, and the viewer renders any absent (unset or
empty) stellar address as "NOT SET" instead of raising an error. -/
theorem unset_address_not_error :
    (∀ (p : Nat) (isPaid : Option String → Nat → Bool) (orig : ReceiptIdentity)
       (m : MintingReceipt) (acc : Ledger × List ReceiptIdentity),
       isPaid m.stellar_payout_address m.reward.tft = false →
       hasIdentity acc.1 (retryIdentity orig) = false →
       retryStep p isPaid (fun _ => Option.none) acc (orig, m) =
         (acc.1 ++ [{ period := p, identity := retryIdentity orig
                      receipt := Receipt.retry
                        (buildRetryReceipt orig m Option.none) }],
          acc.2 ++ [retryIdentity orig])) ∧
    (∀ (orig : ReceiptIdentity) (m : MintingReceipt),
       (buildRetryReceipt orig m Option.none).stellar_payout_address
         = Option.none) ∧
    MintingUI.renderStellarAddress Option.none = MintingUI.notSetText ∧
    MintingUI.renderStellarAddress (Option.some "") = MintingUI.notSetText ∧
    (∀ a : String, a ≠ "" →
       MintingUI.renderStellarAddress (Option.some a) = a) := by
  refine ⟨?_, fun orig m => rfl, rfl, by decide, ?_⟩
  · intro p ip orig m acc h1 h2
    rw [retryStep_eq]
    simp [h1, h2]
  · intro a ha
    simp [MintingUI.renderStellarAddress, ha]

/-- Witness for C8 at a concrete input: retrying `sampleMinting 7` (unpaid,
uncovered) with every farm address unset emits the Retry receipt recording
the address as not set, and a set address renders as itself. -/
theorem unset_address_not_error_witness :
    retryStep 2 (fun _ _ => false) (fun _ => Option.none) ([], [])
        (mintIdentity 1 7, sampleMinting 7) =
      ([{ period := 2, identity := retryIdentity (mintIdentity 1 7)
          receipt := Receipt.retry
            (buildRetryReceipt (mintIdentity 1 7) (sampleMinting 7)
              Option.none) }],
       [retryIdentity (mintIdentity 1 7)]) ∧
      MintingUI.renderStellarAddress (Option.some "GA123") = "GA123" := by
  have h := unset_address_not_error
  exact ⟨h.1 2 (fun _ _ => false) (mintIdentity 1 7) (sampleMinting 7)
    ([], []) rfl rfl, h.2.2.2.2 "GA123" (by decide)⟩

theorem emitReceipt_ok (L : Ledger) (p : Nat) (i : ReceiptIdentity) (r : Receipt)
    (L2 : Ledger) (h : emitReceipt L p i r = Except.ok L2) :
    L2 = L ++ [{ period := p, identity := i, receipt := r }] := by
  simp only [emitReceipt] at h
  split at h
  · exact Except.noConfusion h
  · injection h with h2
    exact h2.symm

theorem applyOp_extends (L : Ledger) (op : LedgerOp) :
    ∃ suffix, applyOp L op = L ++ suffix := by
  cases op with
  | emitMinting p r =>
      simp only [applyOp]
      cases hE : emitReceipt L p (mintIdentity p r.node_id) (Receipt.minting r) with
      | ok L2 => exact ⟨_, emitReceipt_ok _ _ _ _ _ hE⟩
      | error err => exact ⟨[], (List.append_nil L).symm⟩
  | emitRetry p orig r =>
      simp only [applyOp]
      cases hE : emitReceipt L p (retryIdentity orig) (Receipt.retry r) with
      | ok L2 => exact ⟨_, emitReceipt_ok _ _ _ _ _ hE⟩
      | error err => exact ⟨[], (List.append_nil L).symm⟩
  | emitFixup p r =>
      simp only [applyOp]
      cases hE : emitReceipt L p
          { node := r.node_id, variant := Variant.fixup, period := p }
          (Receipt.fixup r) with
      | ok L2 => exact ⟨_, emitReceipt_ok _ _ _ _ _ hE⟩
      | error err => exact ⟨[], (List.append_nil L).symm⟩

theorem applyOps_extends (ops : List LedgerOp) :
    ∀ L : Ledger, ∃ suffix, applyOps L ops = L ++ suffix := by
  induction ops with
  | nil => intro L; exact ⟨[], (List.append_nil L).symm⟩
  | cons op t ih =>
      intro L
      rcases applyOp_extends L op with ⟨s1, h1⟩
      rcases ih (applyOp L op) with ⟨s2, h2⟩
      refine ⟨s1 ++ s2, ?_⟩
      simp only [applyOps, List.foldl_cons] at h2 ⊢
      rw [h2, h1, List.append_assoc]

/-- Claim C9: the Receipt Ledger is append-only: any sequence of emit
operations, across any periods, only appends — every receipt already
persisted stays, unmutated and undeleted, as a prefix of the resulting
ledger; a Retry correction references the receipt it redresses; and a Fixup
receipt is filed under the period in which the correction is discovered,
never backdated into the original period. -/
theorem ledger_append_only (L : Ledger) (ops : List LedgerOp) :
    (∃ suffix, applyOps L ops = L ++ suffix) ∧
    (∀ (orig : ReceiptIdentity) (m : MintingReceipt) (a : Option String),
       (buildRetryReceipt orig m a).retry_for_receipt = orig) ∧
    (∀ (p : Nat) (r : FixupReceipt) (e : LedgerEntry),
       e ∈ applyOp L (LedgerOp.emitFixup p r) →
       e ∈ L ∨ (e.period = p ∧ e.identity.period = p)) := by
  refine ⟨applyOps_extends ops L, fun orig m a => rfl, ?_⟩
  intro p r e he
  simp only [applyOp] at he
  cases hE : emitReceipt L p
      { node := r.node_id, variant := Variant.fixup, period := p }
      (Receipt.fixup r) with
  | ok L2 =>
      rw [hE] at he
      have hL2 := emitReceipt_ok _ _ _ _ _ hE
      subst hL2
      rcases List.mem_append.mp he with he | he
      · exact Or.inl he
      · have h2 := List.mem_singleton.mp he
        subst h2
        exact Or.inr ⟨rfl, rfl⟩
  | error err =>
      rw [hE] at he
      exact Or.inl he

/-- Witness for C9 at a concrete input: filing `sampleFixup` as a period-3
correction against the empty ledger only appends, and the entry it appends is
filed under period 3. -/
theorem ledger_append_only_witness :
    (∃ suffix, applyOps [] [LedgerOp.emitFixup 3 sampleFixup] = [] ++ suffix) ∧
      (sampleFixupEntry ∈ ([] : Ledger) ∨
        (sampleFixupEntry.period = 3 ∧ sampleFixupEntry.identity.period = 3)) := by
  have h := ledger_append_only ([] : Ledger) [LedgerOp.emitFixup 3 sampleFixup]
  exact ⟨h.1, h.2.2 3 sampleFixup sampleFixupEntry (by decide)⟩

theorem handleInput_good (st i : String)
    (h : st = "" ∨ st.data.all MintingUI.isLowerHexChar = true) :
    MintingUI.handleInput st i = "" ∨
      (MintingUI.handleInput st i).data.all MintingUI.isLowerHexChar = true := by
  simp only [MintingUI.handleInput]
  split
  · next hc =>
      simp only [Bool.or_eq_true] at hc
      rcases hc with hm | he
      · right
        simp only [MintingUI.matchesHexInput, Bool.and_eq_true] at hm
        exact hm.2
      · left
        simpa using he
  · exact h

theorem foldl_handleInput_good (inputs : List String) :
    ∀ st : String, (st = "" ∨ st.data.all MintingUI.isLowerHexChar = true) →
      (inputs.foldl MintingUI.handleInput st = "" ∨
        (inputs.foldl MintingUI.handleInput st).data.all
          MintingUI.isLowerHexChar = true) := by
  induction inputs with
  | nil => intro st h; exact h
  | cons i t ih =>
      intro st h
      simp only [List.foldl_cons]
      exact ih _ (handleInput_good st i h)

/-- Claim C10: across every sequence of input-change events the viewer's
stored `receiptHash` state is always the empty string or entirely lowercase
hexadecimal; any other input is rejected without changing the state; and a
receipt lookup request is issued exactly when the stored hash has length
64. -/
theorem receiptHash_invariant :
    (∀ inputs : List String,
       inputs.foldl MintingUI.handleInput "" = "" ∨
         (inputs.foldl MintingUI.handleInput "").data.all
           MintingUI.isLowerHexChar = true) ∧
    (∀ st i : String, MintingUI.matchesHexInput i = false → i ≠ "" →
       MintingUI.handleInput st i = st) ∧
    (∀ st : String, MintingUI.shouldFetchReceipt st = true ↔ st.length = 64) := by
  refine ⟨fun inputs => foldl_handleInput_good inputs "" (Or.inl rfl), ?_, ?_⟩
  · intro st i hm he
    simp [MintingUI.handleInput, hm, he]
  · intro st
    simp [MintingUI.shouldFetchReceipt]

/-- Witness for C10 at a concrete input: after the inputs "ab", "XY", "ff"
the stored hash is empty or all lowercase hex; the rejected input "XY"
leaves the state "ab" unchanged; and no lookup is issued for "ab". -/
theorem receiptHash_invariant_witness :
    (["ab", "XY", "ff"].foldl MintingUI.handleInput "" = "" ∨
       (["ab", "XY", "ff"].foldl MintingUI.handleInput "").data.all
         MintingUI.isLowerHexChar = true) ∧
      MintingUI.handleInput "ab" "XY" = "ab" ∧
      (MintingUI.shouldFetchReceipt "ab" = true ↔ ("ab" : String).length = 64) := by
  have h := receiptHash_invariant
  exact ⟨h.1 ["ab", "XY", "ff"], h.2.1 "ab" "XY" (by decide) (by decide),
    h.2.2 "ab"⟩

end Minting
